import Mathlib

/-!
Verification of the realtime audio pipeline in src/App.tsx of the hsk1
repository: the base64 transport helpers (encode/decode, lines 14-31),
the PCM quantizer createBlob (lines 52-62), the PCM decoder
decodeAudioData (lines 33-50), the playback scheduling step inside the
live-session onmessage handler (lines 677-695), and the session
lifecycle (cleanup, startSession, stopSession, onerror, lines 553-731).

Modelling conventions:
- bytes are Nat values below 256; byte sequences are lists;
- JavaScript doubles are modelled as rationals: the float operations the
  source performs (multiply or divide by the power of two 32768) are
  exact in binary floating point, so no rounding step is lost;
- btoa/atob are expanded to the RFC 4648 base64 alphabet they implement;
  String.fromCharCode and charCodeAt are inverse on codes below 256 and
  are absorbed into the byte lists;
- Int16Array stores are JS ToInt16: truncation toward zero, then
  reduction mod 2 to the 16, reinterpreted as a signed 16-bit value; the
  backing buffer is viewed little-endian as on every supported platform;
- stateful component refs become a record threaded through explicit
  transition functions, with the release calls recorded as actions.
-/

namespace HSK

/-- Base64 alphabet of btoa/atob (RFC 4648), in value order. -/
def b64Alphabet : List Char :=
  ['A', 'B', 'C', 'D', 'E', 'F', 'G', 'H', 'I', 'J', 'K', 'L', 'M',
   'N', 'O', 'P', 'Q', 'R', 'S', 'T', 'U', 'V', 'W', 'X', 'Y', 'Z',
   'a', 'b', 'c', 'd', 'e', 'f', 'g', 'h', 'i', 'j', 'k', 'l', 'm',
   'n', 'o', 'p', 'q', 'r', 's', 't', 'u', 'v', 'w', 'x', 'y', 'z',
   '0', '1', '2', '3', '4', '5', '6', '7', '8', '9', '+', '/']

/-- Character for a 6-bit value, as produced by btoa. -/
def b64Char (n : Nat) : Char := b64Alphabet.getD n '='

/-- Value of a base64 character, as consumed by atob. -/
def b64Val (c : Char) : Nat := b64Alphabet.indexOf c

/-- App.tsx encode (lines 14-21): bytes to base64 text.  The source
builds a binary string with String.fromCharCode and applies btoa; btoa
groups the byte codes three at a time into four sextet characters and
pads the final partial group with the character for value 61. -/
def encode : List Nat → List Char
  | b0 :: b1 :: b2 :: rest =>
      b64Char (b0 / 4) :: b64Char ((b0 % 4) * 16 + b1 / 16) ::
        b64Char ((b1 % 16) * 4 + b2 / 64) :: b64Char (b2 % 64) :: encode rest
  | [b0, b1] => [b64Char (b0 / 4), b64Char ((b0 % 4) * 16 + b1 / 16),
                 b64Char ((b1 % 16) * 4), '=']
  | [b0] => [b64Char (b0 / 4), b64Char ((b0 % 4) * 16), '=', '=']
  | [] => []

/-- App.tsx decode (lines 23-31): base64 text to bytes.  The source
applies atob and reads the codes back with charCodeAt; atob consumes
four characters at a time, a trailing padded group yielding one or two
bytes.  Inputs that are not valid base64 are outside the model (atob
would reject them); encode never produces them. -/
def decode : List Char → List Nat
  | c0 :: c1 :: c2 :: c3 :: rest =>
      if c3 = '=' then
        if c2 = '=' then [b64Val c0 * 4 + b64Val c1 / 16]
        else [b64Val c0 * 4 + b64Val c1 / 16, (b64Val c1 % 16) * 16 + b64Val c2 / 4]
      else
        (b64Val c0 * 4 + b64Val c1 / 16) :: ((b64Val c1 % 16) * 16 + b64Val c2 / 4) ::
          ((b64Val c2 % 4) * 64 + b64Val c3) :: decode rest
  | _ => []

/-- JS ToIntegerOrInfinity on a finite value: truncation toward zero.
This is the integer conversion an Int16Array store performs first. -/
def jsTrunc (q : ℚ) : ℤ := if 0 ≤ q then ⌊q⌋ else ⌈q⌉

/-- The unsigned 16-bit pattern an Int16Array store leaves in memory for
the scaled sample q: ToInt16 reduces the truncated integer mod 2 to the
16.  Int.emod with a positive modulus is already in [0, 65536). -/
def toInt16bits (q : ℚ) : Nat := ((jsTrunc q) % 65536).toNat

/-- The Int16Array buffer filled by createBlob (line 56:
int16[i] = data[i] * 32768), viewed as its little-endian bytes. -/
def createBlobBytes : List ℚ → List Nat
  | [] => []
  | s :: rest =>
      toInt16bits (s * 32768) % 256 :: toInt16bits (s * 32768) / 256 ::
        createBlobBytes rest

/-- The Blob record createBlob returns (lines 58-61). -/
structure EncodedBlob where
  data : List Char
  mimeType : String

/-- App.tsx createBlob (lines 52-62). -/
def createBlob (samples : List ℚ) : EncodedBlob :=
  { data := encode (createBlobBytes samples)
    mimeType := "audio/pcm;rate=16000" }

/-- Signed 16-bit value of a little-endian byte pair, as an Int16Array
read returns it. -/
def int16OfBytes (lo hi : Nat) : ℤ :=
  if lo + 256 * hi < 32768 then ((lo + 256 * hi : Nat) : ℤ)
  else ((lo + 256 * hi : Nat) : ℤ) - 65536

/-- The Int16Array view of a byte list (new Int16Array(data.buffer)),
little-endian.  A trailing odd byte never reaches this point: the
Int16Array constructor rejects an odd byte length first. -/
def bytesToInt16List : List Nat → List ℤ
  | lo :: hi :: rest => int16OfBytes lo hi :: bytesToInt16List rest
  | _ => []

/-- App.tsx decodeAudioData (lines 33-50).  new Int16Array(data.buffer)
throws a RangeError when the byte length is odd, modelled as none.  The
JS frameCount (line 40) can be fractional; createBuffer converts its
length argument through ToUint32, which truncates, and the loop's
writes beyond the allocated channel length are silently discarded, so
the effective frame count is the floor, here Nat division.
ctx.createBuffer (line 41) throws NotSupportedError when an argument is
outside its nominal range: a channel count of zero (which a zero
numChannels also produces via frameCount Infinity, ToUint32 0) or above
32, or a floored frame count of zero — all modelled as none.  Channel
c, frame i reads interleaved element i * numChannels + c and divides by
32768.0 (line 46). -/
def decodeAudioData (data : List Nat) (numChannels : Nat) : Option (List (List ℚ)) :=
  if data.length % 2 ≠ 0 then none
  else if numChannels = 0 ∨ 32 < numChannels
      ∨ (bytesToInt16List data).length / numChannels = 0 then none
  else
    some ((List.range numChannels).map fun channel =>
      (List.range ((bytesToInt16List data).length / numChannels)).map fun i =>
        ((bytesToInt16List data).getD (i * numChannels + channel) 0 : ℚ) / 32768)

/-- JS ToInt16 of an integer: reduce mod 2 to the 16 and reinterpret
the pattern as signed.  Spec-side description of the wire quantity. -/
def toInt16Wrap (t : ℤ) : ℤ :=
  if t % 65536 < 32768 then t % 65536 else t % 65536 - 65536

/-- The signed 16-bit integer a sample occupies on the wire: the
little-endian byte pair createBlob wrote for it, read back. -/
def wireInt (s : ℚ) : ℤ :=
  int16OfBytes (toInt16bits (s * 32768) % 256) (toInt16bits (s * 32768) / 256)

/-- One scheduling step of the onmessage handler (lines 685-690): the
cursor is raised to the output clock when it has fallen behind, the
buffer starts at the cursor, and the cursor advances by the buffer
duration.  Returns (assigned start time, new cursor). -/
def onmessageSchedule (currentTime duration nextStartTime : ℚ) : ℚ × ℚ :=
  ((if nextStartTime < currentTime then currentTime else nextStartTime),
   (if nextStartTime < currentTime then currentTime else nextStartTime) + duration)

/-- The start times assigned to a sequence of inbound chunks, each given
as (output clock at arrival, buffer duration), processed in delivery
order from the given initial cursor. -/
def runSchedule : ℚ → List (ℚ × ℚ) → List ℚ
  | _, [] => []
  | next, (c, d) :: rest =>
      (if next < c then c else next) ::
        runSchedule ((if next < c then c else next) + d) rest

/-- The five resource refs cleanup guards (lines 535-541): true when
the ref currently holds a resource. -/
structure Refs where
  session : Bool
  stream : Bool
  scriptProcessor : Bool
  inputCtx : Bool
  outputCtx : Bool
deriving DecidableEq

/-- The release calls cleanup can perform (lines 553-578). -/
inductive ReleaseAction
  | closeSession
  | stopStreamTracks
  | disconnectProcessor
  | closeInputCtx
  | closeOutputCtx
  | cancelSpeech
deriving DecidableEq

/-- App.tsx cleanup (lines 553-578): each release step is guarded on
its ref (if or optional chaining) and the ref is nulled; the
speech-synthesis cancel at the end is unconditional.  Returns the refs
afterwards and the release calls performed, in source order. -/
def cleanup (r : Refs) : Refs × List ReleaseAction :=
  ({ session := false, stream := false, scriptProcessor := false,
     inputCtx := false, outputCtx := false },
   (if r.session then [ReleaseAction.closeSession] else []) ++
   (if r.stream then [ReleaseAction.stopStreamTracks] else []) ++
   (if r.scriptProcessor then [ReleaseAction.disconnectProcessor] else []) ++
   (if r.inputCtx then [ReleaseAction.closeInputCtx] else []) ++
   (if r.outputCtx then [ReleaseAction.closeOutputCtx] else []) ++
   [ReleaseAction.cancelSpeech])

/-- The micState React state (line 529). -/
inductive MicState
  | idle
  | requesting
  | ready
  | error
deriving DecidableEq

/-- The error messages startSession and the callbacks can set. -/
inductive ErrMsg
  | apiKeyMissing
  | lessonMissing
  | connectionError
  | startFailure
deriving DecidableEq

/-- Observable state of the AIConversation component: the resource
refs, the mic state, the error message, whether each audio context is
still running (close() ends rendering even though the closure in onopen
keeps a reference), and whether the capture graph is connected. -/
structure Comp where
  refs : Refs
  micState : MicState
  errorMsg : Option ErrMsg
  inputCtxOpen : Bool
  outputCtxOpen : Bool
  captureWired : Bool
deriving DecidableEq

/-- cleanup's effect on the component: refs nulled, contexts closed,
capture graph disconnected. -/
def cleanupComp (c : Comp) : Comp :=
  { c with
    refs := (cleanup c.refs).1
    inputCtxOpen := false
    outputCtxOpen := false
    captureWired := false }

/-- App.tsx onerror callback (lines 710-714): logs, sets the error
message and micState error.  It performs no release call. -/
def onerror (c : Comp) : Comp :=
  { c with errorMsg := some ErrMsg.connectionError, micState := MicState.error }

/-- App.tsx stopSession (lines 727-731): cleanup, then micState idle. -/
def stopSession (c : Comp) : Comp :=
  { cleanupComp c with micState := MicState.idle }

/-- The continuation of sessionRef.current = await sessionPromise
(line 718): when the connect promise resolves, the resolved handle is
stored in sessionRef unconditionally. -/
def awaitConnectResolved (c : Comp) : Comp :=
  { c with refs := { c.refs with session := true } }

/-- App.tsx onopen callback (lines 657-673): creates the media-stream
source and script processor and connects them; there is no guard
against the component having been torn down in the meantime. -/
def onopenWire (c : Comp) : Comp :=
  { c with refs := { c.refs with scriptProcessor := true }, captureWired := true }

/-- Whether an onaudioprocess callback (lines 663-669) can still fire
and hence a sendRealtimeInput be issued: the capture graph must be
connected and the input context still running — a closed AudioContext
renders no audio, so its ScriptProcessorNode emits no events. -/
def captureSendEnabled (c : Comp) : Bool :=
  c.captureWired && c.inputCtxOpen

/-- Component state while the connect attempt of startSession is still
pending (after lines 607-645): stream acquired, both contexts created
and running, micState ready, no session handle yet, capture not wired
(that happens in onopen). -/
def pendingConnectState : Comp :=
  { refs := { session := false, stream := true, scriptProcessor := false,
              inputCtx := true, outputCtx := true }
    micState := MicState.ready
    errorMsg := none
    inputCtxOpen := true
    outputCtxOpen := true
    captureWired := false }

/-- Component state of a fully established session: connect resolved
and onopen wiring done. -/
def connectedState : Comp := onopenWire (awaitConnectResolved pendingConnectState)

/-- Outcome of the checks at the top of startSession (lines 587-604),
all performed before any resource is acquired (getUserMedia runs only
at line 607). -/
inductive StartCheck
  | missingCredential
  | missingLessonPrompts
  | proceed (key : String)
deriving DecidableEq

/-- Line 591: apiKey or-else process.env.API_KEY.  A JS string is falsy
exactly when empty; an unset environment variable is none. -/
def effectiveApiKey (apiKey : String) (envApiKey : Option String) : Option String :=
  if apiKey ≠ "" then some apiKey else envApiKey

/-- The credential and lesson-prompt checks of startSession
(lines 591-604), in source order: a falsy effective key errors first,
then a missing prompt script, otherwise the session start proceeds with
the effective key. -/
def startSessionCheck (apiKey : String) (envApiKey : Option String)
    (hasPrompts : Bool) : StartCheck :=
  match effectiveApiKey apiKey envApiKey with
  | none => StartCheck.missingCredential
  | some k =>
      if k = "" then StartCheck.missingCredential
      else if hasPrompts then StartCheck.proceed k
      else StartCheck.missingLessonPrompts

/-- Unfolding of one runSchedule step. -/
lemma runSchedule_cons (next c d : ℚ) (rest : List (ℚ × ℚ)) :
    runSchedule next ((c, d) :: rest) =
      (onmessageSchedule c d next).1 ::
        runSchedule (onmessageSchedule c d next).2 rest := rfl

/-- C1: on each inbound audio blob the onmessage handler schedules the
decoded buffer to start at exactly max(currentOutputClockTime,
nextStartTimeCursor) and then advances the cursor by exactly the buffer
duration. -/
theorem c1_schedule_start_max (currentTime duration nextStartTime : ℚ) :
    (onmessageSchedule currentTime duration nextStartTime).1
        = max currentTime nextStartTime ∧
    (onmessageSchedule currentTime duration nextStartTime).2
        = max currentTime nextStartTime + duration := by
  constructor
  · show (if nextStartTime < currentTime then currentTime else nextStartTime)
        = max currentTime nextStartTime
    rw [max_def]
    split_ifs <;> first | rfl | (exfalso; linarith)
  · show (if nextStartTime < currentTime then currentTime else nextStartTime) + duration
        = max currentTime nextStartTime + duration
    rw [max_def]
    split_ifs <;> first | rfl | (exfalso; linarith)

/-- C2: three inbound chunks processed in delivery order get
nondecreasing start times with no overlap, and when the output clock at
the second arrival has not passed the end of the first chunk, the
second start is exactly the first start plus the first duration. -/
theorem c2_schedule_ordering (n0 cA dA cB dB cC dC : ℚ)
    (hA : 0 ≤ dA) (hB : 0 ≤ dB) :
    ∃ sA sB sC, runSchedule n0 [(cA, dA), (cB, dB), (cC, dC)] = [sA, sB, sC] ∧
      sA ≤ sB ∧ sB ≤ sC ∧ sA + dA ≤ sB ∧ sB + dB ≤ sC ∧
      (cB ≤ sA + dA → sB = sA + dA) := by
  simp only [runSchedule]
  refine ⟨_, _, _, rfl, ?_, ?_, ?_, ?_, ?_⟩ <;>
    (split_ifs <;> (try intro h) <;> linarith)

/-- C2 witness at concrete chunks: durations 1 and 1/2, the second
chunk arriving while the clock is at 1/2, before the first chunk ends. -/
theorem c2_schedule_witness :
    (0 : ℚ) ≤ 1 ∧ (0 : ℚ) ≤ 1/2 ∧
    ∃ sA sB sC,
      runSchedule 0 [((0 : ℚ), 1), ((1 : ℚ)/2, (1 : ℚ)/2), ((2 : ℚ), 1)]
          = [sA, sB, sC] ∧
      sA ≤ sB ∧ sB ≤ sC ∧ sA + 1 ≤ sB ∧ sB + 1/2 ≤ sC ∧
      ((1 : ℚ)/2 ≤ sA + 1 → sB = sA + 1) :=
  ⟨by norm_num, by norm_num,
   c2_schedule_ordering 0 0 1 (1/2) (1/2) 2 1 (by norm_num) (by norm_num)⟩

/-- C7: calling cleanup twice in a row from any refs state is safe:
the first call nulls all five resource handles, and the second call
finds them null and performs no release on any of them (only the
unconditional speech-synthesis cancel runs again). -/
theorem c7_cleanup_idempotent (r : Refs) :
    (cleanup (cleanup r).1).1 = (cleanup r).1 ∧
    (cleanup r).1.session = false ∧
    (cleanup r).1.stream = false ∧
    (cleanup r).1.scriptProcessor = false ∧
    (cleanup r).1.inputCtx = false ∧
    (cleanup r).1.outputCtx = false ∧
    (cleanup (cleanup r).1).2 = [ReleaseAction.cancelSpeech] :=
  ⟨rfl, rfl, rfl, rfl, rfl, rfl, rfl⟩

/-- C8 counterexample: in the established-session state, onerror moves
micState to error but releases nothing — the microphone stream, session
handle and contexts all stay held, contradicting the claim that all
acquired resources are released via teardown when onError fires. -/
theorem c8_onerror_cex :
    (onerror connectedState).micState = MicState.error ∧
    (onerror connectedState).refs.session = true ∧
    (onerror connectedState).refs.stream = true ∧
    (onerror connectedState).refs.inputCtx = true ∧
    (onerror connectedState).refs.outputCtx = true := by decide

/-- C8 amended: onerror transitions the state machine to error and
records a human-readable cause, but performs no teardown — every
resource ref is left exactly as it was; the resources are only released
when cleanup later runs (from stopSession or component disposal). -/
theorem c8_onerror_amended (c : Comp) :
    (onerror c).micState = MicState.error ∧
    (onerror c).errorMsg = some ErrMsg.connectionError ∧
    (onerror c).refs = c.refs ∧
    (cleanupComp (onerror c)).refs =
      { session := false, stream := false, scriptProcessor := false,
        inputCtx := false, outputCtx := false } :=
  ⟨rfl, rfl, rfl, rfl⟩

/-- C9 counterexample: stop during a pending connect, then the connect
resolves — line 718 stores the resolved handle in sessionRef
unconditionally, so the session is retained, contradicting the claim
that no further side effects occur and the session is not retained. -/
theorem c9_stop_pending_cex :
    (awaitConnectResolved (stopSession pendingConnectState)).refs.session = true := by
  decide

/-- C9 amended: stopping while the connect is pending does not crash
(cleanup finds the session ref null and skips it, micState returns to
idle); but when the pending connect later resolves, its handle is
stored in sessionRef (retained, never closed), and if onopen fires the
capture wiring proceeds unguarded; no sendRealtimeInput is ever issued
only because the capture context was closed by cleanup, so no
onaudioprocess callback can fire. -/
theorem c9_stop_pending_amended :
    (stopSession pendingConnectState).refs.session = false ∧
    (stopSession pendingConnectState).refs.stream = false ∧
    (stopSession pendingConnectState).micState = MicState.idle ∧
    (awaitConnectResolved (stopSession pendingConnectState)).refs.session = true ∧
    captureSendEnabled (awaitConnectResolved (stopSession pendingConnectState)) = false ∧
    (onopenWire (awaitConnectResolved (stopSession pendingConnectState))).captureWired
        = true ∧
    captureSendEnabled
        (onopenWire (awaitConnectResolved (stopSession pendingConnectState))) = false := by
  decide

/-- C10: startSession raises the missing-credential error exactly when
the stored key is empty and the environment key is unset or empty; with
an empty stored key but a nonempty environment key (and prompts
available) the start proceeds using the environment value.  These
checks run before any resource is acquired. -/
theorem c10_credential_check (apiKey k : String) (envApiKey : Option String)
    (hasPrompts : Bool) :
    (startSessionCheck apiKey envApiKey hasPrompts = StartCheck.missingCredential ↔
      (apiKey = "" ∧ (envApiKey = none ∨ envApiKey = some ""))) ∧
    (apiKey = "" → envApiKey = some k → k ≠ "" → hasPrompts = true →
      startSessionCheck apiKey envApiKey hasPrompts = StartCheck.proceed k) := by
  constructor
  · constructor
    · intro h
      by_cases ha : apiKey = ""
      · subst ha
        refine ⟨rfl, ?_⟩
        cases envApiKey with
        | none => exact Or.inl rfl
        | some k0 =>
            right
            by_cases hk : k0 = ""
            · rw [hk]
            · exfalso
              simp only [startSessionCheck, effectiveApiKey, ne_eq,
                not_true_eq_false, if_false, hk, if_true] at h
              cases hasPrompts <;> simp_all
      · exfalso
        simp only [startSessionCheck, effectiveApiKey, ne_eq, ha,
          not_false_eq_true, if_true, if_false] at h
        cases hasPrompts <;> simp_all
    · rintro ⟨ha, he⟩
      subst ha
      rcases he with he | he <;> subst he <;>
        simp [startSessionCheck, effectiveApiKey]
  · intro ha hk hkne hp
    subst ha
    subst hk
    subst hp
    simp [startSessionCheck, effectiveApiKey, hkne]

/-- C10 witness: empty stored key, environment key set — the session
start proceeds with the environment value. -/
theorem c10_credential_witness :
    startSessionCheck "" (some "abc") true = StartCheck.proceed "abc" :=
  (c10_credential_check "" "abc" (some "abc") true).2 rfl rfl (by decide) rfl

/-- Characters of 6-bit values are never the padding character. -/
lemma b64Char_ne : ∀ n : Nat, n < 64 → b64Char n ≠ '=' := by decide

/-- atob inverts btoa on each 6-bit value. -/
lemma b64Val_b64Char : ∀ n : Nat, n < 64 → b64Val (b64Char n) = n := by decide

/-- C5: the base64 text transport encoding round-trips every byte
sequence, the empty one included: decode (encode B) = B. -/
theorem c5_base64_roundtrip :
    ∀ B : List Nat, (∀ b ∈ B, b < 256) → decode (encode B) = B
  | [], _ => rfl
  | [b0], h => by
      have hb0 : b0 < 256 := h b0 (by simp)
      simp only [encode, decode, if_true]
      rw [b64Val_b64Char _ (by omega : b0 / 4 < 64),
          b64Val_b64Char _ (by omega : (b0 % 4) * 16 < 64)]
      simp only [List.cons.injEq, and_true]
      omega
  | [b0, b1], h => by
      have hb0 : b0 < 256 := h b0 (by simp)
      have hb1 : b1 < 256 := h b1 (by simp)
      simp only [encode, decode, if_true]
      rw [if_neg (b64Char_ne _ (by omega : (b1 % 16) * 4 < 64))]
      rw [b64Val_b64Char _ (by omega : b0 / 4 < 64),
          b64Val_b64Char _ (by omega : (b0 % 4) * 16 + b1 / 16 < 64),
          b64Val_b64Char _ (by omega : (b1 % 16) * 4 < 64)]
      simp only [List.cons.injEq, and_true]
      omega
  | b0 :: b1 :: b2 :: rest, h => by
      have hb0 : b0 < 256 := h b0 (by simp)
      have hb1 : b1 < 256 := h b1 (by simp)
      have hb2 : b2 < 256 := h b2 (by simp)
      have ih := c5_base64_roundtrip rest (fun b hb => h b (by simp [hb]))
      simp only [encode, decode]
      rw [if_neg (b64Char_ne _ (by omega : b2 % 64 < 64))]
      rw [b64Val_b64Char _ (by omega : b0 / 4 < 64),
          b64Val_b64Char _ (by omega : (b0 % 4) * 16 + b1 / 16 < 64),
          b64Val_b64Char _ (by omega : (b1 % 16) * 4 + b2 / 64 < 64),
          b64Val_b64Char _ (by omega : b2 % 64 < 64)]
      rw [ih]
      simp only [List.cons.injEq, and_true]
      omega

/-- C5 witness: a concrete byte sequence whose length exercises the
padded final group. -/
theorem c5_base64_witness :
    (∀ b ∈ [(0 : Nat), 127, 255, 10, 3], b < 256) ∧
    decode (encode [0, 127, 255, 10, 3]) = [0, 127, 255, 10, 3] :=
  ⟨by decide, c5_base64_roundtrip _ (by decide)⟩

/-- ToInt16 is the identity on values already in the signed 16-bit
range. -/
lemma toInt16Wrap_eq_self (t : ℤ) (hlo : -32768 ≤ t) (hhi : t ≤ 32767) :
    toInt16Wrap t = t := by
  unfold toInt16Wrap
  split_ifs <;> omega

/-- Reading the little-endian byte pair of a stored 16-bit pattern back
as a signed value yields ToInt16 of the original integer. -/
lemma int16OfBytes_split (t : ℤ) :
    int16OfBytes ((t % 65536).toNat % 256) ((t % 65536).toNat / 256)
      = toInt16Wrap t := by
  unfold int16OfBytes toInt16Wrap
  split_ifs <;> omega

/-- The wire integer of a sample is ToInt16 of the truncated scaled
sample. -/
lemma wireInt_eq_wrap (s : ℚ) : wireInt s = toInt16Wrap (jsTrunc (s * 32768)) := by
  unfold wireInt toInt16bits
  exact int16OfBytes_split (jsTrunc (s * 32768))

/-- createBlob writes two bytes per sample. -/
lemma createBlobBytes_length :
    ∀ S : List ℚ, (createBlobBytes S).length = 2 * S.length
  | [] => rfl
  | s :: rest => by
      have ih := createBlobBytes_length rest
      simp only [createBlobBytes, List.length_cons, ih]
      omega

/-- The Int16Array view of createBlob's buffer is the per-sample wire
integer list. -/
lemma bytesToInt16List_createBlobBytes :
    ∀ S : List ℚ, bytesToInt16List (createBlobBytes S) = S.map wireInt
  | [] => rfl
  | s :: rest => by
      have ih := bytesToInt16List_createBlobBytes rest
      show int16OfBytes (toInt16bits (s * 32768) % 256) (toInt16bits (s * 32768) / 256) ::
          bytesToInt16List (createBlobBytes rest) = wireInt s :: rest.map wireInt
      rw [ih]
      rfl

/-- An Int16Array view holds half as many elements as bytes, the floor
taken over a trailing odd byte. -/
lemma bytesToInt16List_length :
    ∀ bs : List Nat, (bytesToInt16List bs).length = bs.length / 2
  | [] => rfl
  | [_] => by
      simp only [bytesToInt16List, List.length_nil, List.length_cons]
  | _ :: _ :: rest => by
      have ih := bytesToInt16List_length rest
      simp only [bytesToInt16List, List.length_cons, ih]
      omega

/-- Element k of the Int16Array view comes from bytes 2k and 2k+1. -/
lemma bytesToInt16List_getD :
    ∀ (bs : List Nat) (k : Nat), 2 * k + 1 < bs.length →
      (bytesToInt16List bs).getD k 0 =
        int16OfBytes (bs.getD (2 * k) 0) (bs.getD (2 * k + 1) 0)
  | [], _, h => by simp at h
  | [_], _, h => by simp at h
  | _ :: _ :: _, 0, _ => rfl
  | lo :: hi :: rest, k + 1, h => by
      have hlen : 2 * k + 1 < rest.length := by
        simp only [List.length_cons] at h
        omega
      have ih := bytesToInt16List_getD rest k hlen
      have e1 : 2 * (k + 1) = 2 * k + 1 + 1 := by omega
      calc (bytesToInt16List (lo :: hi :: rest)).getD (k + 1) 0
          = (bytesToInt16List rest).getD k 0 := by
            show (int16OfBytes lo hi :: bytesToInt16List rest).getD (k + 1) 0 = _
            rw [List.getD_cons_succ]
        _ = int16OfBytes (rest.getD (2 * k) 0) (rest.getD (2 * k + 1) 0) := ih
        _ = int16OfBytes ((lo :: hi :: rest).getD (2 * (k + 1)) 0)
              ((lo :: hi :: rest).getD (2 * (k + 1) + 1) 0) := by
            rw [e1, List.getD_cons_succ, List.getD_cons_succ, List.getD_cons_succ,
              List.getD_cons_succ]

/-- getD through map, inside the length. -/
lemma getD_map_lt {α β : Type} (f : α → β) (dA : α) (dB : β) :
    ∀ (l : List α) (i : Nat), i < l.length → (l.map f).getD i dB = f (l.getD i dA)
  | [], _, h => by simp at h
  | _ :: _, 0, _ => rfl
  | a :: tl, i + 1, h => by
      show (f a :: tl.map f).getD (i + 1) dB = f ((a :: tl).getD (i + 1) dA)
      rw [List.getD_cons_succ, List.getD_cons_succ]
      exact getD_map_lt f dA dB tl i (by simpa using h)

/-- Mapping an index-getD access over the full index range is mapping
over the list. -/
lemma range_map_getD {α β : Type} (g : α → β) (d : α) :
    ∀ l : List α, (List.range l.length).map (fun i => g (l.getD i d)) = l.map g
  | [] => rfl
  | a :: tl => by
      have ih := range_map_getD g d tl
      rw [List.length_cons, List.range_succ_eq_map, List.map_cons, List.map_cons,
        List.map_map]
      congr 1

/-- getD into a mapped range at an in-range index. -/
lemma range_map_getD_lt {β : Type} (f : Nat → β) (d : β) {c n : Nat} (h : c < n) :
    ((List.range n).map f).getD c d = f c := by
  rw [List.getD_eq_getElem _ _ (by simpa using h)]
  simp

/-- decodeAudioData applied, mono, to the bytes createBlob produced for
a nonempty sample list: one channel whose samples are the wire integers
divided by 32768.  Nonemptiness keeps the frame count positive, away
from createBuffer's zero-length throw. -/
lemma decodeAudioData_createBlobBytes (S : List ℚ) (hne : S ≠ []) :
    decodeAudioData (createBlobBytes S) 1 =
      some [S.map fun s => (wireInt s : ℚ) / 32768] := by
  have hlen := createBlobBytes_length S
  have hS : S.length ≠ 0 := by simpa using hne
  have hfc : (bytesToInt16List (createBlobBytes S)).length = S.length := by
    rw [bytesToInt16List_length, hlen]
    omega
  unfold decodeAudioData
  rw [if_neg (by omega)]
  rw [if_neg (by
    push_neg
    refine ⟨by omega, by omega, ?_⟩
    rw [hfc]
    omega)]
  rw [bytesToInt16List_createBlobBytes]
  rw [(by decide : List.range 1 = [0])]
  simp only [List.map_cons, List.map_nil, List.length_map, Nat.div_one, mul_one,
    add_zero]
  have h3 := range_map_getD (fun t : ℤ => (t : ℚ) / 32768) 0 (S.map wireInt)
  rw [List.length_map, List.map_map] at h3
  exact congrArg (fun out => some [out]) h3

/-- Quantization error of one sample in [-1, 1): truncate toward zero,
no wraparound, then at most one integer step of error at scale 32768. -/
lemma wireInt_approx (s : ℚ) (h1 : -1 ≤ s) (h2 : s < 1) :
    |(wireInt s : ℚ) / 32768 - s| ≤ 1 / 32768 := by
  rw [wireInt_eq_wrap]
  have hx1 : (-32768 : ℚ) ≤ s * 32768 := by linarith
  have hx2 : s * 32768 < 32768 := by linarith
  unfold jsTrunc
  split_ifs with h0
  · have hf1 : ((⌊s * 32768⌋ : ℤ) : ℚ) ≤ s * 32768 := Int.floor_le _
    have hf2 : s * 32768 < ⌊s * 32768⌋ + 1 := Int.lt_floor_add_one _
    have ht1 : (0 : ℤ) ≤ ⌊s * 32768⌋ := Int.floor_nonneg.mpr h0
    have ht2 : ((⌊s * 32768⌋ : ℤ) : ℚ) < 32768 := lt_of_le_of_lt hf1 hx2
    have ht3 : ⌊s * 32768⌋ < 32768 := by exact_mod_cast ht2
    rw [toInt16Wrap_eq_self _ (by omega) (by omega)]
    rw [abs_le]
    constructor <;> linarith
  · have hc1 : s * 32768 ≤ ((⌈s * 32768⌉ : ℤ) : ℚ) := Int.le_ceil _
    have hc2 : ((⌈s * 32768⌉ : ℤ) : ℚ) < s * 32768 + 1 := Int.ceil_lt_add_one _
    have ht1 : ⌈s * 32768⌉ ≤ 0 := by
      apply Int.ceil_le.mpr
      push_cast
      linarith
    have ht2 : (-32768 : ℤ) ≤ ⌈s * 32768⌉ := by
      have h4 : ((-32768 : ℤ) : ℚ) ≤ ((⌈s * 32768⌉ : ℤ) : ℚ) := by
        push_cast
        linarith
      exact_mod_cast h4
    rw [toInt16Wrap_eq_self _ ht2 (by omega)]
    rw [abs_le]
    constructor <;> linarith

/-- C4 counterexample: for the sample 7/131072 the scaled value is
1.75; the Int16Array store truncates it to 1, while round(s * 32768)
is 2 — the wire value is not the nearest integer. -/
theorem c4_wire_round_cex :
    bytesToInt16List (createBlobBytes [(7 : ℚ) / 131072])
      ≠ [round ((7 : ℚ) / 131072 * 32768)] := by
  have hx : (7 : ℚ) / 131072 * 32768 = 7 / 4 := by norm_num
  have hw : wireInt ((7 : ℚ) / 131072) = 1 := by
    rw [wireInt_eq_wrap]
    have h1 : jsTrunc ((7 : ℚ) / 131072 * 32768) = 1 := by
      unfold jsTrunc
      rw [if_pos (by rw [hx]; norm_num), hx]
      rw [Int.floor_eq_iff]
      norm_num
    rw [h1]
    decide
  have hr : round ((7 : ℚ) / 131072 * 32768) = 2 := by
    rw [hx, round_eq, show (7 : ℚ) / 4 + 1 / 2 = 9 / 4 by norm_num,
      Int.floor_eq_iff]
    norm_num
  rw [bytesToInt16List_createBlobBytes]
  simp only [List.map_cons, List.map_nil, hw, hr]
  decide

/-- C4 amended: the wire value of each sample is the little-endian
signed 16-bit integer ToInt16(trunc(s * 32768)) — truncation toward
zero, wrapped mod 2 to the 16 into the signed range — not the nearest
integer. -/
theorem c4_wire_trunc_amended (S : List ℚ) (i : Nat) (hi : i < S.length) :
    (bytesToInt16List (createBlobBytes S)).getD i 0 =
      toInt16Wrap (jsTrunc (S.getD i 0 * 32768)) := by
  rw [bytesToInt16List_createBlobBytes, getD_map_lt wireInt 0 0 S i hi,
    wireInt_eq_wrap]

/-- C4 witness: concrete sample 3/65536, wire value trunc(1.5) = 1. -/
theorem c4_wire_witness :
    0 < [(3 : ℚ) / 65536].length ∧
    (bytesToInt16List (createBlobBytes [(3 : ℚ) / 65536])).getD 0 0 =
      toInt16Wrap (jsTrunc ([(3 : ℚ) / 65536].getD 0 0 * 32768)) :=
  ⟨by decide, c4_wire_trunc_amended [(3 : ℚ) / 65536] 0 (by decide)⟩

/-- C3 counterexample: at the in-range sample 1.0 the scaled value
32768 wraps to -32768, so the decoded sample is -1 — an error of 2,
far beyond the claimed 1/32768 bound. -/
theorem c3_roundtrip_cex :
    decodeAudioData (createBlobBytes [(1 : ℚ)]) 1 = some [[(-1 : ℚ)]] ∧
    ¬ (|(-1 : ℚ) - 1| ≤ 1 / 32768) := by
  constructor
  · rw [decodeAudioData_createBlobBytes _ (List.cons_ne_nil _ _)]
    have hw : wireInt 1 = -32768 := by
      rw [wireInt_eq_wrap]
      have h1 : jsTrunc ((1 : ℚ) * 32768) = 32768 := by
        unfold jsTrunc
        rw [if_pos (by norm_num),
          show (1 : ℚ) * 32768 = ((32768 : ℤ) : ℚ) by norm_num, Int.floor_intCast]
      rw [h1]
      decide
    simp only [List.map_cons, List.map_nil, hw]
    norm_num
  · intro hcon
    have h2 : |(-1 : ℚ) - 1| = 2 := by
      rw [show (-1 : ℚ) - 1 = -2 by norm_num, abs_neg]
      exact abs_of_nonneg (by norm_num)
    rw [h2] at hcon
    norm_num at hcon

/-- C3 amended: for a nonempty sample list (an empty one would give
createBuffer a zero frame count, which throws) with every value in
[-1, 1) (excluding exactly 1, where the unclamped store wraps), the
encode-decode round trip at channel count 1 preserves the length and
reproduces every sample to within 1/32768. -/
theorem c3_roundtrip_amended (S : List ℚ) (hne : S ≠ [])
    (h : ∀ s ∈ S, -1 ≤ s ∧ s < 1) :
    ∃ out, decodeAudioData (createBlobBytes S) 1 = some [out] ∧
      out.length = S.length ∧
      ∀ i, i < S.length → |out.getD i 0 - S.getD i 0| ≤ 1 / 32768 := by
  refine ⟨S.map fun s => (wireInt s : ℚ) / 32768,
    decodeAudioData_createBlobBytes S hne, by simp, ?_⟩
  intro i hi
  rw [getD_map_lt (fun s => (wireInt s : ℚ) / 32768) 0 0 S i hi]
  have hmem : S.getD i 0 ∈ S := by
    rw [List.getD_eq_getElem _ _ hi]
    exact List.getElem_mem hi
  obtain ⟨ha, hb⟩ := h _ hmem
  exact wireInt_approx _ ha hb

/-- C3 witness: the single sample 1/2 round-trips within tolerance. -/
theorem c3_roundtrip_witness :
    ([(1 : ℚ) / 2] ≠ []) ∧
    (∀ s ∈ [(1 : ℚ) / 2], -1 ≤ s ∧ s < 1) ∧
    ∃ out, decodeAudioData (createBlobBytes [(1 : ℚ) / 2]) 1 = some [out] ∧
      out.length = [(1 : ℚ) / 2].length ∧
      ∀ i, i < [(1 : ℚ) / 2].length →
        |out.getD i 0 - [(1 : ℚ) / 2].getD i 0| ≤ 1 / 32768 :=
  ⟨List.cons_ne_nil _ _,
   by
    intro s hs
    rw [List.mem_singleton] at hs
    subst hs
    constructor <;> norm_num,
   c3_roundtrip_amended [(1 : ℚ) / 2] (List.cons_ne_nil _ _) (by
    intro s hs
    rw [List.mem_singleton] at hs
    subst hs
    constructor <;> norm_num)⟩

/-- C6 counterexample: a single-byte input has odd byte length, so
decodeAudioData fails (the Int16Array constructor throws) instead of
producing per-channel sequences. -/
theorem c6_decode_cex : decodeAudioData [0] 1 = none := rfl

/-- C6 amended: for byte sequences of even length and a channelCount in
createBuffer's nominal range [1, 32], decodeAudioData fails (the source
throws NotSupportedError) when floor(totalInt16Count / channelCount) is
zero, and otherwise yields channelCount sequences of
floor(totalInt16Count / channelCount) frames, dropping remainder int16
values, each sample being its little-endian int16 value over 32768. -/
theorem c6_decode_amended (data : List Nat) (ch : Nat)
    (heven : data.length % 2 = 0) (hch1 : 1 ≤ ch) (hch2 : ch ≤ 32) :
    (data.length / 2 / ch = 0 → decodeAudioData data ch = none) ∧
    (1 ≤ data.length / 2 / ch →
      ∃ out, decodeAudioData data ch = some out ∧
        out.length = ch ∧
        (∀ c, c < ch → (out.getD c []).length = data.length / 2 / ch) ∧
        (∀ c i, c < ch → i < data.length / 2 / ch →
          (out.getD c []).getD i 0 =
            (int16OfBytes (data.getD (2 * (i * ch + c)) 0)
                (data.getD (2 * (i * ch + c) + 1) 0) : ℚ) / 32768)) := by
  constructor
  · intro h0
    unfold decodeAudioData
    rw [if_neg (by omega), if_pos]
    right
    right
    rw [bytesToInt16List_length]
    exact h0
  · intro hfc
    refine ⟨(List.range ch).map fun channel =>
        (List.range (data.length / 2 / ch)).map fun i =>
          ((bytesToInt16List data).getD (i * ch + channel) 0 : ℚ) / 32768,
      ?_, by simp, ?_, ?_⟩
    · unfold decodeAudioData
      rw [if_neg (by omega), if_neg (by
        push_neg
        refine ⟨by omega, by omega, ?_⟩
        rw [bytesToInt16List_length]
        exact Nat.pos_iff_ne_zero.mp hfc), bytesToInt16List_length]
    · intro c hc
      rw [range_map_getD_lt _ _ hc]
      simp
    · intro c i hc hi
      rw [range_map_getD_lt _ _ hc, range_map_getD_lt _ _ hi]
      have hk : i * ch + c < data.length / 2 := by
        have hstep : i * ch + c < (data.length / 2 / ch) * ch := by
          calc i * ch + c < i * ch + ch := by omega
            _ = (i + 1) * ch := by ring
            _ ≤ (data.length / 2 / ch) * ch :=
                Nat.mul_le_mul_right ch (Nat.succ_le_of_lt hi)
        exact lt_of_lt_of_le hstep (Nat.div_mul_le_self _ _)
      rw [bytesToInt16List_getD data (i * ch + c) (by omega)]

/-- C6 witness: the two bytes of one mono frame decode to one channel
of one sample. -/
theorem c6_decode_witness :
    [(0 : Nat), 128].length % 2 = 0 ∧ 1 ≤ 1 ∧ (1 : Nat) ≤ 32 ∧
    (([(0 : Nat), 128].length / 2 / 1 = 0 → decodeAudioData [(0 : Nat), 128] 1 = none) ∧
     (1 ≤ [(0 : Nat), 128].length / 2 / 1 →
      ∃ out, decodeAudioData [(0 : Nat), 128] 1 = some out ∧
        out.length = 1 ∧
        (∀ c, c < 1 → (out.getD c []).length = [(0 : Nat), 128].length / 2 / 1) ∧
        (∀ c i, c < 1 → i < [(0 : Nat), 128].length / 2 / 1 →
          (out.getD c []).getD i 0 =
            (int16OfBytes ([(0 : Nat), 128].getD (2 * (i * 1 + c)) 0)
                ([(0 : Nat), 128].getD (2 * (i * 1 + c) + 1) 0) : ℚ) / 32768))) :=
  ⟨by decide, by decide, by decide,
   c6_decode_amended [(0 : Nat), 128] 1 (by decide) (by decide) (by decide)⟩

end HSK
